import Mathlib

/-!
Shallow embedding of the payload-enrichment pipeline of
`src/app/src/rollbar.py` (the `_payload_handler` hook and its helper data
producers), together with proofs of the spec's testable properties.

Python payloads are arbitrarily nested JSON-like dictionaries; we model them
with the closed `Value` variant below.  Python `dict` objects are modelled as
association lists of string keys: `d[k] = v` updates the first binding of `k`
in place (keeping its position) or appends a fresh binding at the end, exactly
as CPython preserves insertion order; `d.get(k, default)` looks the key up
with a default; `{**a, **b}` starts from `a` and writes every binding of `b`
over it, so keys of `b` win on conflict.  A Python call that raises
(`KeyError`, `TypeError`, `AttributeError`) is modelled by an explicit error
outcome.  The per-call `uuid4().hex` correlation token is modelled by passing
the generated hex string as an explicit parameter of the handler.
-/

namespace Rollbar

/-- JSON-like payload values: null, booleans, integers, strings, lists and
string-keyed objects (Python dictionaries in insertion order). -/
inductive Value where
  | null : Value
  | bool : Bool → Value
  | int : Int → Value
  | str : String → Value
  | list : List Value → Value
  | obj : List (String × Value) → Value

/-- First-binding lookup in a dictionary, `d[k]` / `k in d`. -/
def lookup : List (String × Value) → String → Option Value
  | [], _ => none
  | (k, v) :: rest, key => if k = key then some v else lookup rest key

/-- Python `d[key] = v`: overwrite the first binding of `key` in place, or
append a new binding at the end (insertion order preserved). -/
def setKey : List (String × Value) → String → Value → List (String × Value)
  | [], key, v => [(key, v)]
  | (k, w) :: rest, key, v =>
      if k = key then (k, v) :: rest else (k, w) :: setKey rest key v

/-- The key list of a dictionary, in order. -/
def keys (l : List (String × Value)) : List String := l.map Prod.fst

/-- A dictionary binds each key at most once (every real Python dict does). -/
def NodupKeys (l : List (String × Value)) : Prop := (keys l).Nodup

/-- Python `{**a, **b}`: write every binding of `b` over `a` in order. -/
def mergeObj (a b : List (String × Value)) : List (String × Value) :=
  b.foldl (fun acc kv => setKey acc kv.1 kv.2) a

/-- Python `v.get(key, dflt)`: defined on dictionaries, an `AttributeError`
(modelled as `none`) on any other value. -/
def pyGet (v : Value) (key : String) (dflt : Value) : Option Value :=
  match v with
  | .obj fs => some ((lookup fs key).getD dflt)
  | _ => none

/-- Python truthiness of a JSON-like value. -/
def truthy : Value → Bool
  | .null => false
  | .bool b => b
  | .int n => n != 0
  | .str s => s != ""
  | .list xs => !xs.isEmpty
  | .obj fs => !fs.isEmpty

/-- Whether a value is a dictionary. -/
def Value.isObj : Value → Bool
  | .obj _ => true
  | _ => false

/-- Python `lvl == "error"` for a JSON-like `lvl`: a string equal character by
character, any non-string value compares unequal to a string. -/
def levelIsError : Value → Bool
  | .str s => s == "error"
  | _ => false

/-- Lookup of a path of keys through nested dictionaries (an observer used to
state properties about payloads). -/
def getAt (v : Value) : List String → Option Value
  | [] => some v
  | k :: rest =>
      match v with
      | .obj fs =>
          match lookup fs k with
          | some w => getAt w rest
          | none => none
      | _ => none

/-- The `msgspec.Struct` record `CustomMetadata(foo: str, bar: dict[str, int])`
of `rollbar.py`. -/
structure CustomMetadata where
  foo : String
  bar : List (String × Int)

/-- `msgspec.to_builtins` on a `CustomMetadata` instance: the struct becomes a
plain dictionary of its fields in declaration order. -/
def CustomMetadata.to_builtins (m : CustomMetadata) : Value :=
  .obj [("foo", .str m.foo),
        ("bar", .obj (m.bar.map (fun kv => (kv.1, .int kv.2))))]

/-- `_get_person()`: the fixed person dictionary attached to every error
payload. -/
def get_person : Value :=
  .obj [("id", .str "1234"), ("tenant", .str "tenant_name")]

/-- `_get_custom_data()`: the pipeline-generated custom-data defaults.  The
`uuid4().hex` correlation token generated by the call is the explicit
`traceId` argument. -/
def get_custom_data (traceId : String) : List (String × Value) :=
  [("trace_id", .str traceId),
   ("feature_flags", .list [.str "feature_1", .str "feature_2"])]

/-- The literal nested mapping written at `payload["data"]["foo_key"]`. -/
def foo_key_value : Value :=
  .obj [("bar_key", .str "bar_value"),
        ("baz_key", .list [.int 1, .int 2, .int 3]),
        ("deep", .obj [("nested", .obj [("structure", .bool true)])])]

/-- The value written at `payload["data"]["base_model_custom"]`:
`msgspec.to_builtins({"the_model": CustomMetadata(foo="foo_value",
bar={"key1": 10, "key2": 20})})`. -/
def base_model_custom_value : Value :=
  .obj [("the_model",
         CustomMetadata.to_builtins ⟨"foo_value", [("key1", 10), ("key2", 20)]⟩)]

/-- Line 73 of `rollbar.py`:
`payload["data"].get("body", {}).get("trace", {}).get("exception", {})`.
`none` models an `AttributeError` from calling `.get` on a non-dictionary
intermediate value. -/
def extract_exc (dfs : List (String × Value)) : Option Value :=
  (pyGet (.obj dfs) "body" (.obj [])).bind fun b =>
    (pyGet b "trace" (.obj [])).bind fun t =>
      pyGet t "exception" (.obj [])

/-- Lines 83–109 of `rollbar.py`: the in-place enrichment of the payload's
`data` dictionary, as a function on its binding list.  `none` models the
`TypeError` Python raises in `{**_get_custom_data(), **existing}` when the
existing `custom` value is not a mapping.  The `custom` read happens after
the `person` write, as in the source. -/
def enrich_data (traceId : String) (dfs : List (String × Value)) :
    Option (List (String × Value)) :=
  let d1 := setKey dfs "person" get_person
  match (lookup d1 "custom").getD (.obj []) with
  | .obj cfs =>
      let d2 := setKey d1 "custom" (.obj (mergeObj (get_custom_data traceId) cfs))
      let d3 := setKey d2 "foo_key" foo_key_value
      let d4 := setKey d3 "empty_value" .null
      let d5 := setKey d4 "base_model_custom" base_model_custom_value
      let d6 := setKey d5 "framework" (.str "oreore_framework 1.0")
      some d6
  | _ => none

/-- Outcome of one `_payload_handler` invocation: an uncaught exception, the
veto return `False` (carrying the payload object, which the handler has not
touched), or the enriched payload returned for transmission. -/
inductive HandlerResult where
  | err : HandlerResult
  | vetoed : Value → HandlerResult
  | sent : Value → HandlerResult

/-- `_payload_handler(payload, **_kw)` of `rollbar.py`.  The `uuid4().hex`
token drawn during `_get_custom_data()` is the explicit `traceId` argument;
`HandlerResult.err` models an uncaught `KeyError` / `TypeError` /
`AttributeError`.  When the exception dictionary extracted from the trace is
truthy, the source reads `exception.get("class", "")` and
`exception.get("message", "")` for logging, which raises when the truthy
value is not a dictionary. -/
def payload_handler (traceId : String) (payload : Value) : HandlerResult :=
  match payload with
  | .obj pfs =>
      match lookup pfs "data" with
      | some (.obj dfs) =>
          match lookup dfs "level" with
          | some lvl =>
              if levelIsError lvl then
                match extract_exc dfs with
                | some exc =>
                    if truthy exc && !exc.isObj then .err
                    else
                      match enrich_data traceId dfs with
                      | some d6 => .sent (.obj (setKey pfs "data" (.obj d6)))
                      | none => .err
                | none => .err
              else .vetoed (.obj pfs)
          | none => .err
      | some _ => .err
      | none => .err
  | _ => .err

/-! ### Dictionary lemmas -/

theorem lookup_setKey_self (l : List (String × Value)) (k : String) (v : Value) :
    lookup (setKey l k v) k = some v := by
  induction l with
  | nil => simp [setKey, lookup]
  | cons kv rest ih =>
      obtain ⟨k0, w⟩ := kv
      by_cases h : k0 = k
      · simp [setKey, lookup, h]
      · simp [setKey, lookup, h, ih]

theorem lookup_setKey_ne (l : List (String × Value)) (k k' : String) (v : Value)
    (h : k' ≠ k) : lookup (setKey l k v) k' = lookup l k' := by
  induction l with
  | nil =>
      have hne : ¬ (k = k') := fun hh => h hh.symm
      simp [setKey, lookup, hne]
  | cons kv rest ih =>
      obtain ⟨k0, w⟩ := kv
      by_cases h0 : k0 = k
      · subst h0
        have hne : ¬ (k0 = k') := fun hh => h hh.symm
        simp [setKey, lookup, hne]
      · simp only [setKey, if_neg h0]
        by_cases h1 : k0 = k'
        · simp [lookup, h1]
        · simp [lookup, h1, ih]

theorem setKey_lookup_self (l : List (String × Value)) (k : String) (v : Value)
    (h : lookup l k = some v) : setKey l k v = l := by
  induction l with
  | nil => simp [lookup] at h
  | cons kv rest ih =>
      obtain ⟨k0, w⟩ := kv
      by_cases h0 : k0 = k
      · simp only [lookup, if_pos h0] at h
        obtain rfl : w = v := by injection h
        simp [setKey, h0]
      · simp only [lookup, if_neg h0] at h
        simp [setKey, h0, ih h]

theorem keys_cons (k : String) (v : Value) (l : List (String × Value)) :
    keys ((k, v) :: l) = k :: keys l := rfl

theorem mem_keys_cons (k k0 : String) (w : Value) (l : List (String × Value)) :
    k ∈ keys ((k0, w) :: l) ↔ k = k0 ∨ k ∈ keys l := by
  rw [keys_cons]
  exact List.mem_cons

theorem lookup_eq_none_iff (l : List (String × Value)) (k : String) :
    lookup l k = none ↔ k ∉ keys l := by
  induction l with
  | nil => simp [lookup, keys]
  | cons kv rest ih =>
      obtain ⟨k0, w⟩ := kv
      by_cases h0 : k0 = k
      · subst h0
        simp [lookup, mem_keys_cons]

      · have h0' : ¬ (k = k0) := fun hh => h0 hh.symm
        simp [lookup, mem_keys_cons, h0, h0', ih]

theorem keys_setKey_of_mem (l : List (String × Value)) (k : String) (v : Value)
    (h : k ∈ keys l) : keys (setKey l k v) = keys l := by
  induction l with
  | nil => simp [keys] at h
  | cons kv rest ih =>
      obtain ⟨k0, w⟩ := kv
      by_cases h0 : k0 = k
      · simp [setKey, h0, keys_cons]
      · have hm : k ∈ keys rest := by
          rcases (mem_keys_cons k k0 w rest).mp h with h1 | h1
          · exact absurd h1.symm h0
          · exact h1
        simp only [setKey, if_neg h0, keys_cons, ih hm]

theorem keys_setKey_of_not_mem (l : List (String × Value)) (k : String) (v : Value)
    (h : k ∉ keys l) : keys (setKey l k v) = keys l ++ [k] := by
  induction l with
  | nil => simp [setKey, keys]
  | cons kv rest ih =>
      obtain ⟨k0, w⟩ := kv
      have h0 : k0 ≠ k := by
        intro hh
        exact h ((mem_keys_cons k k0 w rest).mpr (Or.inl hh.symm))
      have hm : k ∉ keys rest :=
        fun hh => h ((mem_keys_cons k k0 w rest).mpr (Or.inr hh))
      simp only [setKey, if_neg h0, keys_cons, ih hm, List.cons_append]

theorem setKey_of_not_mem (l : List (String × Value)) (k : String) (v : Value)
    (h : k ∉ keys l) : setKey l k v = l ++ [(k, v)] := by
  induction l with
  | nil => simp [setKey]
  | cons kv rest ih =>
      obtain ⟨k0, w⟩ := kv
      have h0 : k0 ≠ k := by
        intro hh
        exact h ((mem_keys_cons k k0 w rest).mpr (Or.inl hh.symm))
      have hm : k ∉ keys rest :=
        fun hh => h ((mem_keys_cons k k0 w rest).mpr (Or.inr hh))
      simp [setKey, h0, ih hm]

/-! ### Merge lemmas -/

theorem mergeObj_nil (a : List (String × Value)) : mergeObj a [] = a := rfl

theorem mergeObj_cons (a : List (String × Value)) (k : String) (v : Value)
    (b : List (String × Value)) :
    mergeObj a ((k, v) :: b) = mergeObj (setKey a k v) b := rfl

theorem lookup_mergeObj_of_none (b : List (String × Value)) :
    ∀ (a : List (String × Value)) (k : String), lookup b k = none →
      lookup (mergeObj a b) k = lookup a k := by
  induction b with
  | nil => intro a k _; rfl
  | cons kv b' ih =>
      intro a k h
      obtain ⟨kb, vb⟩ := kv
      have hkb : ¬ (kb = k) := by
        intro hh
        simp [lookup, hh] at h
      have hb' : lookup b' k = none := by
        simpa [lookup, hkb] using h
      rw [mergeObj_cons, ih _ k hb', lookup_setKey_ne _ _ _ _ (fun hh => hkb hh.symm)]

theorem lookup_mergeObj_of_some (b : List (String × Value)) :
    ∀ (a : List (String × Value)) (k : String) (v : Value), NodupKeys b →
      lookup b k = some v → lookup (mergeObj a b) k = some v := by
  induction b with
  | nil => intro a k v _ h; simp [lookup] at h
  | cons kv b' ih =>
      intro a k v hnd h
      obtain ⟨kb, vb⟩ := kv
      have hnd' : NodupKeys b' := by
        have := hnd
        rw [NodupKeys, keys_cons, List.nodup_cons] at this
        exact this.2
      by_cases hkb : kb = k
      · subst hkb
        simp only [lookup, if_pos rfl] at h
        obtain rfl : vb = v := by injection h
        have hb' : lookup b' kb = none := by
          rw [lookup_eq_none_iff]
          have := hnd
          rw [NodupKeys, keys_cons, List.nodup_cons] at this
          exact this.1
        rw [mergeObj_cons, lookup_mergeObj_of_none b' _ kb hb', lookup_setKey_self]
      · simp only [lookup, if_neg hkb] at h
        rw [mergeObj_cons, ih _ k v hnd' h]

theorem mergeObj_eq_append (b : List (String × Value)) :
    ∀ (a : List (String × Value)), (∀ k ∈ keys b, k ∉ keys a) → NodupKeys b →
      mergeObj a b = a ++ b := by
  induction b with
  | nil => intro a _ _; simp [mergeObj_nil]
  | cons kv b' ih =>
      intro a hdisj hnd
      obtain ⟨kb, vb⟩ := kv
      have hkb : kb ∉ keys a :=
        hdisj kb ((mem_keys_cons kb kb vb b').mpr (Or.inl rfl))
      have hnd' : NodupKeys b' := by
        have := hnd
        rw [NodupKeys, keys_cons, List.nodup_cons] at this
        exact this.2
      have hkbb' : kb ∉ keys b' := by
        have := hnd
        rw [NodupKeys, keys_cons, List.nodup_cons] at this
        exact this.1
      have hdisj' : ∀ k ∈ keys b', k ∉ keys (a ++ [(kb, vb)]) := by
        intro k hk
        have h1 : k ∉ keys a :=
          hdisj k ((mem_keys_cons k kb vb b').mpr (Or.inr hk))
        have h2 : k ≠ kb := fun hh => hkbb' (hh ▸ hk)
        intro hmem
        rw [keys, List.map_append] at hmem
        rcases List.mem_append.mp hmem with h3 | h3
        · exact h1 h3
        · simp at h3
          exact h2 h3
      rw [mergeObj_cons, setKey_of_not_mem a kb vb hkb, ih _ hdisj' hnd',
        List.append_assoc]
      rfl

/-- Writing an arbitrary dictionary over a two-entry base keeps the two base
keys at the head (possibly with new values) and appends only fresh, distinct
keys behind them. -/
theorem mergeObj_head2 (k1 k2 : String)
    (b : List (String × Value)) :
    ∀ (x y : Value) (r : List (String × Value)),
      k1 ∉ keys r → k2 ∉ keys r → NodupKeys r →
      ∃ x' y' r', mergeObj ((k1, x) :: (k2, y) :: r) b = (k1, x') :: (k2, y') :: r' ∧
        k1 ∉ keys r' ∧ k2 ∉ keys r' ∧ NodupKeys r' := by
  induction b with
  | nil =>
      intro x y r h1 h2 hnd
      exact ⟨x, y, r, rfl, h1, h2, hnd⟩
  | cons kv b' ih =>
      intro x y r h1 h2 hnd
      obtain ⟨kb, vb⟩ := kv
      by_cases hb1 : k1 = kb
      · subst hb1
        rw [mergeObj_cons]
        have : setKey ((k1, x) :: (k2, y) :: r) k1 vb = (k1, vb) :: (k2, y) :: r := by
          simp [setKey]
        rw [this]
        exact ih vb y r h1 h2 hnd
      · by_cases hb2 : k2 = kb
        · subst hb2
          rw [mergeObj_cons]
          have : setKey ((k1, x) :: (k2, y) :: r) k2 vb = (k1, x) :: (k2, vb) :: r := by
            simp [setKey, hb1]
          rw [this]
          exact ih x vb r h1 h2 hnd
        · rw [mergeObj_cons]
          have hstep : setKey ((k1, x) :: (k2, y) :: r) kb vb =
              (k1, x) :: (k2, y) :: setKey r kb vb := by
            simp [setKey, fun hh : k1 = kb => hb1 hh, fun hh : k2 = kb => hb2 hh]
          rw [hstep]
          have h1' : k1 ∉ keys (setKey r kb vb) := by
            by_cases hm : kb ∈ keys r
            · rw [keys_setKey_of_mem r kb vb hm]; exact h1
            · rw [keys_setKey_of_not_mem r kb vb hm]
              intro hmem
              rcases List.mem_append.mp hmem with h3 | h3
              · exact h1 h3
              · exact hb1 (by simpa using h3)
          have h2' : k2 ∉ keys (setKey r kb vb) := by
            by_cases hm : kb ∈ keys r
            · rw [keys_setKey_of_mem r kb vb hm]; exact h2
            · rw [keys_setKey_of_not_mem r kb vb hm]
              intro hmem
              rcases List.mem_append.mp hmem with h3 | h3
              · exact h2 h3
              · exact hb2 (by simpa using h3)
          have hnd' : NodupKeys (setKey r kb vb) := by
            by_cases hm : kb ∈ keys r
            · rw [NodupKeys, keys_setKey_of_mem r kb vb hm]; exact hnd
            · rw [NodupKeys, keys_setKey_of_not_mem r kb vb hm]
              exact List.Nodup.append hnd (List.nodup_singleton kb)
                (by simpa using hm)
          exact ih x y (setKey r kb vb) h1' h2' hnd'

/-- Re-merging the pipeline's custom defaults (with a possibly different
correlation token) over an already-merged custom dictionary changes
nothing: every default key already has a binding, which wins the merge. -/
theorem mergeObj_absorb (t1 t2 : String) (c : List (String × Value)) :
    mergeObj (get_custom_data t2) (mergeObj (get_custom_data t1) c) =
      mergeObj (get_custom_data t1) c := by
  obtain ⟨x', y', r', hEq, h1, h2, hnd⟩ :=
    mergeObj_head2 "trace_id" "feature_flags" c (.str t1)
      (.list [.str "feature_1", .str "feature_2"]) [] (by simp [keys])
      (by simp [keys]) (by simp [NodupKeys, keys])
  have hc : mergeObj (get_custom_data t1) c =
      ("trace_id", x') :: ("feature_flags", y') :: r' := hEq
  rw [hc, mergeObj_cons, mergeObj_cons]
  have hstep : setKey (setKey (get_custom_data t2) "trace_id" x')
      "feature_flags" y' = [("trace_id", x'), ("feature_flags", y')] := by
    simp [get_custom_data, setKey]
  rw [hstep]
  have hdisj : ∀ k ∈ keys r', k ∉ keys [("trace_id", x'), ("feature_flags", y')] := by
    intro k hk hmem
    have : k = "trace_id" ∨ k = "feature_flags" ∨ False := by
      simpa [keys] using hmem
    rcases this with h3 | h3 | h3
    · exact h1 (h3 ▸ hk)
    · exact h2 (h3 ▸ hk)
    · exact h3
  rw [mergeObj_eq_append r' _ hdisj hnd]
  rfl

/-- Merging two bases that bind the same keys and agree everywhere except at
one distinguished key produces results that bind the same keys and agree
everywhere except at that key. -/
theorem mergeObj_agree (K : String) (b : List (String × Value)) :
    ∀ (a1 a2 : List (String × Value)),
      keys a1 = keys a2 → (∀ k, k ≠ K → lookup a1 k = lookup a2 k) →
      keys (mergeObj a1 b) = keys (mergeObj a2 b) ∧
        (∀ k, k ≠ K → lookup (mergeObj a1 b) k = lookup (mergeObj a2 b) k) := by
  induction b with
  | nil =>
      intro a1 a2 hkeys hlook
      exact ⟨hkeys, hlook⟩
  | cons kv b' ih =>
      intro a1 a2 hkeys hlook
      obtain ⟨kb, vb⟩ := kv
      rw [mergeObj_cons, mergeObj_cons]
      apply ih
      · by_cases hm : kb ∈ keys a1
        · rw [keys_setKey_of_mem a1 kb vb hm,
            keys_setKey_of_mem a2 kb vb (hkeys ▸ hm), hkeys]
        · rw [keys_setKey_of_not_mem a1 kb vb hm,
            keys_setKey_of_not_mem a2 kb vb (fun hh => hm (hkeys ▸ hh)), hkeys]
      · intro k hk
        by_cases hkb : k = kb
        · subst hkb
          rw [lookup_setKey_self, lookup_setKey_self]
        · rw [lookup_setKey_ne a1 kb k vb hkb, lookup_setKey_ne a2 kb k vb hkb]
          exact hlook k hk

/-! ### Structure of the enrichment -/

/-- The six keys of `data` that `_payload_handler` writes. -/
def enrichKeys : List String :=
  ["person", "custom", "foo_key", "empty_value", "base_model_custom", "framework"]

/-- The explicit write chain `enrich_data` performs when the existing
`custom` value (dictionary or absent) is the dictionary `cfs`. -/
def enrichChain (traceId : String) (dfs cfs : List (String × Value)) :
    List (String × Value) :=
  setKey (setKey (setKey (setKey (setKey (setKey dfs "person" get_person)
    "custom" (.obj (mergeObj (get_custom_data traceId) cfs)))
    "foo_key" foo_key_value)
    "empty_value" .null)
    "base_model_custom" base_model_custom_value)
    "framework" (.str "oreore_framework 1.0")

theorem enrich_data_eq (traceId : String) (dfs cfs : List (String × Value))
    (hc : (lookup dfs "custom").getD (.obj []) = .obj cfs) :
    enrich_data traceId dfs = some (enrichChain traceId dfs cfs) := by
  have hpc : lookup (setKey dfs "person" get_person) "custom" = lookup dfs "custom" :=
    lookup_setKey_ne dfs "person" "custom" get_person (by decide)
  have hc2 : (lookup (setKey dfs "person" get_person) "custom").getD (.obj []) =
      .obj cfs := by
    rw [hpc]; exact hc
  unfold enrich_data
  simp only [hc2]
  rfl

theorem lookup_enrichChain_self (traceId : String) (dfs cfs : List (String × Value)) :
    lookup (enrichChain traceId dfs cfs) "person" = some get_person ∧
    lookup (enrichChain traceId dfs cfs) "custom" =
      some (.obj (mergeObj (get_custom_data traceId) cfs)) ∧
    lookup (enrichChain traceId dfs cfs) "foo_key" = some foo_key_value ∧
    lookup (enrichChain traceId dfs cfs) "empty_value" = some .null ∧
    lookup (enrichChain traceId dfs cfs) "base_model_custom" =
      some base_model_custom_value ∧
    lookup (enrichChain traceId dfs cfs) "framework" =
      some (.str "oreore_framework 1.0") := by
  unfold enrichChain
  refine ⟨?_, ?_, ?_, ?_, ?_, ?_⟩
  · rw [lookup_setKey_ne _ _ _ _ (by decide), lookup_setKey_ne _ _ _ _ (by decide),
      lookup_setKey_ne _ _ _ _ (by decide), lookup_setKey_ne _ _ _ _ (by decide),
      lookup_setKey_ne _ _ _ _ (by decide), lookup_setKey_self]
  · rw [lookup_setKey_ne _ _ _ _ (by decide), lookup_setKey_ne _ _ _ _ (by decide),
      lookup_setKey_ne _ _ _ _ (by decide), lookup_setKey_ne _ _ _ _ (by decide),
      lookup_setKey_self]
  · rw [lookup_setKey_ne _ _ _ _ (by decide), lookup_setKey_ne _ _ _ _ (by decide),
      lookup_setKey_ne _ _ _ _ (by decide), lookup_setKey_self]
  · rw [lookup_setKey_ne _ _ _ _ (by decide), lookup_setKey_ne _ _ _ _ (by decide),
      lookup_setKey_self]
  · rw [lookup_setKey_ne _ _ _ _ (by decide), lookup_setKey_self]
  · rw [lookup_setKey_self]

theorem lookup_enrichChain_frame (traceId : String) (dfs cfs : List (String × Value))
    (k : String) (hk : k ∉ enrichKeys) :
    lookup (enrichChain traceId dfs cfs) k = lookup dfs k := by
  have h1 : k ≠ "person" := fun hh => hk (by rw [hh]; simp [enrichKeys])
  have h2 : k ≠ "custom" := fun hh => hk (by rw [hh]; simp [enrichKeys])
  have h3 : k ≠ "foo_key" := fun hh => hk (by rw [hh]; simp [enrichKeys])
  have h4 : k ≠ "empty_value" := fun hh => hk (by rw [hh]; simp [enrichKeys])
  have h5 : k ≠ "base_model_custom" := fun hh => hk (by rw [hh]; simp [enrichKeys])
  have h6 : k ≠ "framework" := fun hh => hk (by rw [hh]; simp [enrichKeys])
  unfold enrichChain
  rw [lookup_setKey_ne _ _ _ _ h6, lookup_setKey_ne _ _ _ _ h5,
    lookup_setKey_ne _ _ _ _ h4, lookup_setKey_ne _ _ _ _ h3,
    lookup_setKey_ne _ _ _ _ h2, lookup_setKey_ne _ _ _ _ h1]

/-! ### Handler characterization -/

theorem levelIsError_iff (lvl : Value) : levelIsError lvl = true ↔ lvl = .str "error" := by
  cases lvl <;> simp [levelIsError]

theorem payload_handler_sent (traceId : String) (pfs dfs : List (String × Value))
    (exc : Value) (d6 : List (String × Value))
    (hdata : lookup pfs "data" = some (.obj dfs))
    (hlvl : lookup dfs "level" = some (.str "error"))
    (hexc : extract_exc dfs = some exc)
    (hobj : (truthy exc && !exc.isObj) = false)
    (hen : enrich_data traceId dfs = some d6) :
    payload_handler traceId (.obj pfs) = .sent (.obj (setKey pfs "data" (.obj d6))) := by
  simp only [payload_handler, hdata, hlvl, hexc, hobj, hen,
    Bool.false_eq_true, if_false, if_true]
  simp [levelIsError]

theorem payload_handler_sent_inv (traceId : String) (p q : Value)
    (h : payload_handler traceId p = .sent q) :
    ∃ pfs dfs exc d6,
      p = .obj pfs ∧
      lookup pfs "data" = some (.obj dfs) ∧
      lookup dfs "level" = some (.str "error") ∧
      extract_exc dfs = some exc ∧
      (truthy exc && !exc.isObj) = false ∧
      enrich_data traceId dfs = some d6 ∧
      q = .obj (setKey pfs "data" (.obj d6)) := by
  cases p with
  | obj pfs =>
      refine ⟨pfs, ?_⟩
      cases hdata : lookup pfs "data" with
      | none =>
          simp only [payload_handler, hdata] at h
          exact HandlerResult.noConfusion h
      | some dv =>
          cases dv with
          | obj dfs =>
              refine ⟨dfs, ?_⟩
              cases hlvl : lookup dfs "level" with
              | none =>
                  simp only [payload_handler, hdata, hlvl] at h
                  exact HandlerResult.noConfusion h
              | some lvl =>
                  cases hiserr : levelIsError lvl with
                  | false =>
                      simp only [payload_handler, hdata, hlvl, hiserr,
                        Bool.false_eq_true, if_false] at h
                      exact HandlerResult.noConfusion h
                  | true =>
                      have hlvlval : lvl = .str "error" := (levelIsError_iff lvl).mp hiserr
                      subst hlvlval
                      cases hexc : extract_exc dfs with
                      | none =>
                          simp only [payload_handler, hdata, hlvl, hiserr, hexc,
                            if_true] at h
                          exact HandlerResult.noConfusion h
                      | some exc =>
                          cases htr : (truthy exc && !exc.isObj) with
                          | true =>
                              simp only [payload_handler, hdata, hlvl, hiserr, hexc,
                                htr, if_true] at h
                              exact HandlerResult.noConfusion h
                          | false =>
                              cases hen : enrich_data traceId dfs with
                              | none =>
                                  simp only [payload_handler, hdata, hlvl, hiserr,
                                    hexc, htr, hen, Bool.false_eq_true, if_false,
                                    if_true] at h
                                  exact HandlerResult.noConfusion h
                              | some d6 =>
                                  simp only [payload_handler, hdata, hlvl, hiserr,
                                    hexc, htr, hen, Bool.false_eq_true, if_false,
                                    if_true] at h
                                  refine ⟨exc, d6, rfl, rfl, rfl, rfl, htr, rfl, ?_⟩
                                  injection h with h'
                                  exact h'.symm
          | null => simp only [payload_handler, hdata] at h; exact HandlerResult.noConfusion h
          | bool b => simp only [payload_handler, hdata] at h; exact HandlerResult.noConfusion h
          | int n => simp only [payload_handler, hdata] at h; exact HandlerResult.noConfusion h
          | str s => simp only [payload_handler, hdata] at h; exact HandlerResult.noConfusion h
          | list xs => simp only [payload_handler, hdata] at h; exact HandlerResult.noConfusion h
  | null => simp only [payload_handler] at h; exact HandlerResult.noConfusion h
  | bool b => simp only [payload_handler] at h; exact HandlerResult.noConfusion h
  | int n => simp only [payload_handler] at h; exact HandlerResult.noConfusion h
  | str s => simp only [payload_handler] at h; exact HandlerResult.noConfusion h
  | list xs => simp only [payload_handler] at h; exact HandlerResult.noConfusion h

/-! ### Claim theorems -/

/-- C1: under the selective-veto policy, every payload whose `data.level` is
not the string `"error"` makes `_payload_handler` return `False` with the
payload mapping left completely unmodified. -/
theorem claim1_veto_unmodified (traceId : String) (pfs dfs : List (String × Value))
    (lvl : Value)
    (hdata : lookup pfs "data" = some (.obj dfs))
    (hlvl : lookup dfs "level" = some lvl)
    (hne : lvl ≠ .str "error") :
    payload_handler traceId (.obj pfs) = .vetoed (.obj pfs) := by
  have hfalse : levelIsError lvl = false := by
    cases hb : levelIsError lvl
    · rfl
    · exact absurd ((levelIsError_iff lvl).mp hb) hne
  simp only [payload_handler, hdata, hlvl, hfalse, Bool.false_eq_true, if_false]

/-- C1 witness: the concrete payload `{"data": {"level": "debug"}}` is vetoed
and returned untouched. -/
theorem claim1_veto_unmodified_witness :
    payload_handler "c0ffee" (.obj [("data", .obj [("level", .str "debug")])]) =
      .vetoed (.obj [("data", .obj [("level", .str "debug")])]) :=
  claim1_veto_unmodified "c0ffee" [("data", .obj [("level", .str "debug")])]
    [("level", .str "debug")] (.str "debug") rfl rfl
    (fun hh => by injection hh with h2; exact absurd h2 (by decide))

/-- C8: calling `_payload_handler` without a `data` field or without
`data.level` raises (`KeyError`), while a payload that does contain
`data.level` gets past the level lookup: with a non-`"error"` level the
handler reaches the veto return, and with an `"error"` level any raise comes
only from the later exception-trace traversal or custom merge, never from the
level lookup itself. -/
theorem claim8_level_precondition (traceId : String) (pfs dfs : List (String × Value))
    (lvl : Value) :
    (lookup pfs "data" = none → payload_handler traceId (.obj pfs) = .err) ∧
    (lookup pfs "data" = some (.obj dfs) → lookup dfs "level" = none →
      payload_handler traceId (.obj pfs) = .err) ∧
    (lookup pfs "data" = some (.obj dfs) → lookup dfs "level" = some lvl →
      levelIsError lvl = false →
      payload_handler traceId (.obj pfs) = .vetoed (.obj pfs)) ∧
    (lookup pfs "data" = some (.obj dfs) → lookup dfs "level" = some lvl →
      levelIsError lvl = true → payload_handler traceId (.obj pfs) = .err →
      extract_exc dfs = none ∨
        (∃ exc, extract_exc dfs = some exc ∧ (truthy exc && !exc.isObj) = true) ∨
        enrich_data traceId dfs = none) := by
  refine ⟨?_, ?_, ?_, ?_⟩
  · intro hdata
    simp only [payload_handler, hdata]
  · intro hdata hlvl
    simp only [payload_handler, hdata, hlvl]
  · intro hdata hlvl hfalse
    simp only [payload_handler, hdata, hlvl, hfalse, Bool.false_eq_true, if_false]
  · intro hdata hlvl htrue herr
    obtain rfl : lvl = .str "error" := (levelIsError_iff lvl).mp htrue
    cases hexc : extract_exc dfs with
    | none => exact Or.inl rfl
    | some exc =>
        cases htr : (truthy exc && !exc.isObj) with
        | true => exact Or.inr (Or.inl ⟨exc, rfl, htr⟩)
        | false =>
            cases hen : enrich_data traceId dfs with
            | none => exact Or.inr (Or.inr rfl)
            | some d6 =>
                rw [payload_handler_sent traceId pfs dfs exc d6 hdata hlvl hexc htr
                  hen] at herr
                exact HandlerResult.noConfusion herr

/-- C8 witness: a payload whose `data` lacks `level` errors, one lacking
`data` entirely errors, a `debug` level is vetoed, and an error-level payload
that errs does so only for the documented later reasons. -/
theorem claim8_level_precondition_witness :
    payload_handler "c0ffee" (.obj []) = .err ∧
    payload_handler "c0ffee" (.obj [("data", .obj [("foo", .null)])]) = .err ∧
    payload_handler "c0ffee" (.obj [("data", .obj [("level", .str "info")])]) =
      .vetoed (.obj [("data", .obj [("level", .str "info")])]) := by
  refine ⟨?_, ?_, ?_⟩
  · exact (claim8_level_precondition "c0ffee" [] [] .null).1 rfl
  · exact (claim8_level_precondition "c0ffee" [("data", .obj [("foo", .null)])]
      [("foo", .null)] .null).2.1 rfl rfl
  · exact (claim8_level_precondition "c0ffee" [("data", .obj [("level", .str "info")])]
      [("level", .str "info")] (.str "info")).2.2.1 rfl rfl rfl

/-- The concrete input payload of the C4 scenario:
`{"data": {"level": "error", "body": {"trace": {"exception":
{"class": "ZeroDivisionError", "message": "division by zero"}}}}}`. -/
def c4_input : Value :=
  .obj [("data", .obj
    [("level", .str "error"),
     ("body", .obj
       [("trace", .obj
         [("exception", .obj
           [("class", .str "ZeroDivisionError"),
            ("message", .str "division by zero")])])])])]

/-- The payload `_payload_handler` produces from `c4_input` when the
correlation token drawn is `traceId`. -/
def c4_output (traceId : String) : Value :=
  .obj [("data", .obj
    [("level", .str "error"),
     ("body", .obj
       [("trace", .obj
         [("exception", .obj
           [("class", .str "ZeroDivisionError"),
            ("message", .str "division by zero")])])]),
     ("person", get_person),
     ("custom", .obj (get_custom_data traceId)),
     ("foo_key", foo_key_value),
     ("empty_value", .null),
     ("base_model_custom", base_model_custom_value),
     ("framework", .str "oreore_framework 1.0")])]

/-- C4: on the concrete `ZeroDivisionError` payload, `_payload_handler`
returns the payload with `data.level` still `"error"`, `data.person.id ==
"1234"`, `data.framework == "oreore_framework 1.0"`, `data.empty_value ==
None`, and `data.custom` holding the feature-flag list together with the
freshly generated `trace_id`. -/
theorem claim4_scenario (traceId : String) :
    payload_handler traceId c4_input = .sent (c4_output traceId) ∧
    getAt (c4_output traceId) ["data", "level"] = some (.str "error") ∧
    getAt (c4_output traceId) ["data", "person", "id"] = some (.str "1234") ∧
    getAt (c4_output traceId) ["data", "framework"] =
      some (.str "oreore_framework 1.0") ∧
    getAt (c4_output traceId) ["data", "empty_value"] = some .null ∧
    getAt (c4_output traceId) ["data", "custom", "feature_flags"] =
      some (.list [.str "feature_1", .str "feature_2"]) ∧
    getAt (c4_output traceId) ["data", "custom", "trace_id"] =
      some (.str traceId) :=
  ⟨rfl, rfl, rfl, rfl, rfl, rfl, rfl⟩

theorem getAt_single (fs : List (String × Value)) (k : String) :
    getAt (.obj fs) [k] = lookup fs k := by
  cases h : lookup fs k <;> simp [getAt, h]

theorem enrich_data_inv (traceId : String) (dfs d6 : List (String × Value))
    (h : enrich_data traceId dfs = some d6) :
    ∃ cfs, (lookup dfs "custom").getD (.obj []) = .obj cfs ∧
      d6 = enrichChain traceId dfs cfs := by
  have hpc : lookup (setKey dfs "person" get_person) "custom" = lookup dfs "custom" :=
    lookup_setKey_ne dfs "person" "custom" get_person (by decide)
  unfold enrich_data at h
  simp only [hpc] at h
  cases hc : (lookup dfs "custom").getD (.obj []) with
  | obj cfs =>
      simp only [hc] at h
      refine ⟨cfs, rfl, ?_⟩
      have h6 := Option.some.inj h
      rw [← h6]
      rfl
  | null => simp only [hc] at h; exact Option.noConfusion h
  | bool b => simp only [hc] at h; exact Option.noConfusion h
  | int n => simp only [hc] at h; exact Option.noConfusion h
  | str a => simp only [hc] at h; exact Option.noConfusion h
  | list xs => simp only [hc] at h; exact Option.noConfusion h

/-- Inversion of a successful handler run on a payload of known shape: the
level was `"error"`, the exception chain traversed without raising, the
existing `custom` value was a dictionary (or absent), and the result is
exactly the enrichment write chain. -/
theorem payload_handler_sent_inv_obj (traceId : String)
    (pfs dfs : List (String × Value)) (q : Value)
    (hdata : lookup pfs "data" = some (.obj dfs))
    (h : payload_handler traceId (.obj pfs) = .sent q) :
    ∃ cfs exc,
      lookup dfs "level" = some (.str "error") ∧
      extract_exc dfs = some exc ∧
      (truthy exc && !exc.isObj) = false ∧
      (lookup dfs "custom").getD (.obj []) = .obj cfs ∧
      q = .obj (setKey pfs "data" (.obj (enrichChain traceId dfs cfs))) := by
  obtain ⟨pfs', dfs', exc, d6, hp, hdata', hlvl, hexc, htr, hen, hq⟩ :=
    payload_handler_sent_inv traceId _ q h
  obtain rfl : pfs = pfs' := by injection hp
  have hobj : Value.obj dfs = Value.obj dfs' := by
    rw [hdata] at hdata'
    exact Option.some.inj hdata'
  obtain rfl : dfs = dfs' := by injection hobj
  obtain ⟨cfs, hc, rfl⟩ := enrich_data_inv traceId dfs d6 hen
  exact ⟨cfs, exc, hlvl, hexc, htr, hc, hq⟩

theorem getAt_cons_obj (fs : List (String × Value)) (k : String) (w : Value)
    (path : List String) (h : lookup fs k = some w) :
    getAt (.obj fs) (k :: path) = getAt w path := by
  simp only [getAt, h]

/-- A minimal error-level payload used to instantiate several properties:
`{"data": {"level": "error"}}`. -/
def sample_dfs : List (String × Value) := [("level", .str "error")]

/-- Top-level bindings of the minimal error-level sample payload. -/
def sample_pfs : List (String × Value) := [("data", .obj sample_dfs)]

/-- An error-level payload carrying a caller-supplied `custom` dictionary that
already binds `trace_id` and one extra key. -/
def c2_cfs : List (String × Value) :=
  [("trace_id", .str "mine"), ("extra", .obj [("x", .int 1)])]

/-- `data` bindings of the caller-custom sample payload. -/
def c2_dfs : List (String × Value) :=
  [("level", .str "error"), ("custom", .obj c2_cfs)]

/-- Top-level bindings of the caller-custom sample payload. -/
def c2_pfs : List (String × Value) := [("data", .obj c2_dfs)]

/-- C2: for every error-level payload whose `data.custom` is the dictionary
`cfs`, the output `custom` is the pipeline defaults overlaid by `cfs`: keys
bound in `cfs` keep the caller value (wholesale, also for nested values),
keys not bound in `cfs` get the pipeline default. -/
theorem claim2_caller_wins (traceId : String) (pfs dfs cfs : List (String × Value))
    (q : Value)
    (hdata : lookup pfs "data" = some (.obj dfs))
    (hcust : lookup dfs "custom" = some (.obj cfs))
    (hnd : NodupKeys cfs)
    (hsent : payload_handler traceId (.obj pfs) = .sent q) :
    getAt q ["data", "custom"] =
      some (.obj (mergeObj (get_custom_data traceId) cfs)) ∧
    (∀ k v, lookup cfs k = some v →
      lookup (mergeObj (get_custom_data traceId) cfs) k = some v) ∧
    (∀ k, lookup cfs k = none →
      lookup (mergeObj (get_custom_data traceId) cfs) k =
        lookup (get_custom_data traceId) k) := by
  obtain ⟨cfs', exc, hlvl, hexc, htr, hc, hq⟩ :=
    payload_handler_sent_inv_obj traceId pfs dfs q hdata hsent
  rw [hcust] at hc
  obtain rfl : cfs = cfs' := by
    have : Value.obj cfs = Value.obj cfs' := hc
    injection this
  subst hq
  refine ⟨?_, ?_, ?_⟩
  · rw [getAt_cons_obj _ _ _ _ (lookup_setKey_self pfs "data" _), getAt_single]
    exact (lookup_enrichChain_self traceId dfs cfs).2.1
  · intro k v hv
    exact lookup_mergeObj_of_some cfs (get_custom_data traceId) k v hnd hv
  · intro k hnone
    exact lookup_mergeObj_of_none cfs (get_custom_data traceId) k hnone

/-- C2 witness: with caller custom `{"trace_id": "mine", "extra": {"x": 1}}`,
the caller's `trace_id` survives the merge and the untouched default
`feature_flags` comes from the pipeline. -/
theorem claim2_caller_wins_witness :
    lookup (mergeObj (get_custom_data "feedface") c2_cfs) "trace_id" =
      some (.str "mine") ∧
    lookup (mergeObj (get_custom_data "feedface") c2_cfs) "feature_flags" =
      lookup (get_custom_data "feedface") "feature_flags" :=
  ⟨(claim2_caller_wins "feedface" c2_pfs c2_dfs c2_cfs
      (.obj (setKey c2_pfs "data" (.obj (enrichChain "feedface" c2_dfs c2_cfs))))
      rfl rfl (show (keys c2_cfs).Nodup by decide) rfl).2.1 "trace_id" (.str "mine") rfl,
   (claim2_caller_wins "feedface" c2_pfs c2_dfs c2_cfs
      (.obj (setKey c2_pfs "data" (.obj (enrichChain "feedface" c2_dfs c2_cfs))))
      rfl rfl (show (keys c2_cfs).Nodup by decide) rfl).2.2 "feature_flags" rfl⟩

/-- C3: every error-level payload whose input custom does not bind `trace_id`
comes back with `person.id == "1234"` and with `custom.trace_id` equal to the
correlation token drawn in that invocation, so two invocations drawing
distinct tokens produce different `trace_id` values. -/
theorem claim3_person_fresh_trace (t1 t2 : String)
    (pfs dfs cfs : List (String × Value)) (q1 q2 : Value)
    (hne : t1 ≠ t2)
    (hdata : lookup pfs "data" = some (.obj dfs))
    (hcust : (lookup dfs "custom").getD (.obj []) = .obj cfs)
    (hnotid : lookup cfs "trace_id" = none)
    (h1 : payload_handler t1 (.obj pfs) = .sent q1)
    (h2 : payload_handler t2 (.obj pfs) = .sent q2) :
    getAt q1 ["data", "person", "id"] = some (.str "1234") ∧
    getAt q1 ["data", "custom", "trace_id"] = some (.str t1) ∧
    getAt q2 ["data", "custom", "trace_id"] = some (.str t2) ∧
    getAt q1 ["data", "custom", "trace_id"] ≠
      getAt q2 ["data", "custom", "trace_id"] := by
  obtain ⟨cfs1, exc1, hlvl1, hexc1, htr1, hc1, hq1⟩ :=
    payload_handler_sent_inv_obj t1 pfs dfs q1 hdata h1
  obtain ⟨cfs2, exc2, hlvl2, hexc2, htr2, hc2, hq2⟩ :=
    payload_handler_sent_inv_obj t2 pfs dfs q2 hdata h2
  rw [hcust] at hc1 hc2
  obtain rfl : cfs = cfs1 := by
    have : Value.obj cfs = Value.obj cfs1 := hc1
    injection this
  obtain rfl : cfs = cfs2 := by
    have : Value.obj cfs = Value.obj cfs2 := hc2
    injection this
  subst hq1
  subst hq2
  have hp1 : getAt (.obj (setKey pfs "data" (.obj (enrichChain t1 dfs cfs))))
      ["data", "person", "id"] = some (.str "1234") := by
    rw [getAt_cons_obj _ _ _ _ (lookup_setKey_self pfs "data" _),
      getAt_cons_obj _ _ _ _ (lookup_enrichChain_self t1 dfs cfs).1]
    rfl
  have htid : ∀ t : String,
      getAt (.obj (setKey pfs "data" (.obj (enrichChain t dfs cfs))))
        ["data", "custom", "trace_id"] = some (.str t) := by
    intro t
    rw [getAt_cons_obj _ _ _ _ (lookup_setKey_self pfs "data" _),
      getAt_cons_obj _ _ _ _ (lookup_enrichChain_self t dfs cfs).2.1,
      getAt_single, lookup_mergeObj_of_none cfs _ _ hnotid]
    rfl
  refine ⟨hp1, htid t1, htid t2, ?_⟩
  rw [htid t1, htid t2]
  intro heq
  have h' : Value.str t1 = Value.str t2 := Option.some.inj heq
  have h'' : t1 = t2 := by injection h'
  exact hne h''

/-- C3 witness: on the minimal error payload, tokens `"a1"` and `"b2"` give
`person.id == "1234"` and distinct `trace_id` values. -/
theorem claim3_person_fresh_trace_witness :
    getAt (.obj (setKey sample_pfs "data" (.obj (enrichChain "a1" sample_dfs []))))
      ["data", "person", "id"] = some (.str "1234") ∧
    getAt (.obj (setKey sample_pfs "data" (.obj (enrichChain "a1" sample_dfs []))))
      ["data", "custom", "trace_id"] ≠
      getAt (.obj (setKey sample_pfs "data" (.obj (enrichChain "b2" sample_dfs []))))
      ["data", "custom", "trace_id"] :=
  ⟨(claim3_person_fresh_trace "a1" "b2" sample_pfs sample_dfs []
      (.obj (setKey sample_pfs "data" (.obj (enrichChain "a1" sample_dfs []))))
      (.obj (setKey sample_pfs "data" (.obj (enrichChain "b2" sample_dfs []))))
      (by decide) rfl rfl rfl rfl rfl).1,
   (claim3_person_fresh_trace "a1" "b2" sample_pfs sample_dfs []
      (.obj (setKey sample_pfs "data" (.obj (enrichChain "a1" sample_dfs []))))
      (.obj (setKey sample_pfs "data" (.obj (enrichChain "b2" sample_dfs []))))
      (by decide) rfl rfl rfl rfl rfl).2.2.2⟩

/-- C5: every payload the handler sends carries at `data.base_model_custom`
exactly the literal plain nested mapping `{"the_model": {"foo": "foo_value",
"bar": {"key1": 10, "key2": 20}}}` — a `Value` built of dictionaries,
strings and integers only, with no marker of the `CustomMetadata` struct. -/
theorem claim5_no_typed_residue (traceId : String) (pfs dfs : List (String × Value))
    (q : Value)
    (hdata : lookup pfs "data" = some (.obj dfs))
    (hsent : payload_handler traceId (.obj pfs) = .sent q) :
    getAt q ["data", "base_model_custom"] =
      some (.obj [("the_model",
        .obj [("foo", .str "foo_value"),
              ("bar", .obj [("key1", .int 10), ("key2", .int 20)])])]) := by
  obtain ⟨cfs, exc, hlvl, hexc, htr, hc, hq⟩ :=
    payload_handler_sent_inv_obj traceId pfs dfs q hdata hsent
  subst hq
  rw [getAt_cons_obj _ _ _ _ (lookup_setKey_self pfs "data" _), getAt_single,
    (lookup_enrichChain_self traceId dfs cfs).2.2.2.2.1]
  rfl

/-- C5 witness: the literal mapping shows up on the minimal error payload. -/
theorem claim5_no_typed_residue_witness :
    getAt (.obj (setKey sample_pfs "data" (.obj (enrichChain "ab12" sample_dfs []))))
      ["data", "base_model_custom"] =
      some (.obj [("the_model",
        .obj [("foo", .str "foo_value"),
              ("bar", .obj [("key1", .int 10), ("key2", .int 20)])])]) :=
  claim5_no_typed_residue "ab12" sample_pfs sample_dfs
    (.obj (setKey sample_pfs "data" (.obj (enrichChain "ab12" sample_dfs []))))
    rfl rfl

/-- C6: an error-level payload whose exception-trace extraction yields any
dictionary — the empty one when `body`, `trace` or `exception` is absent,
or one missing `class`/`message` — is enriched without raising, and the
result does not depend on the extracted exception at all. -/
theorem claim6_absent_trace_tolerated (traceId : String)
    (pfs dfs cfs : List (String × Value)) (exc : Value)
    (hdata : lookup pfs "data" = some (.obj dfs))
    (hlvl : lookup dfs "level" = some (.str "error"))
    (hexc : extract_exc dfs = some exc)
    (hobj : exc.isObj = true)
    (hcust : (lookup dfs "custom").getD (.obj []) = .obj cfs) :
    payload_handler traceId (.obj pfs) =
      .sent (.obj (setKey pfs "data" (.obj (enrichChain traceId dfs cfs)))) := by
  have hen := enrich_data_eq traceId dfs cfs hcust
  have htr : (truthy exc && !exc.isObj) = false := by
    rw [hobj]
    simp
  exact payload_handler_sent traceId pfs dfs exc (enrichChain traceId dfs cfs)
    hdata hlvl hexc htr hen

/-- C6 witness: the minimal error payload has no `body` at all; extraction
yields the empty dictionary and enrichment succeeds. -/
theorem claim6_absent_trace_tolerated_witness :
    extract_exc sample_dfs = some (.obj []) ∧
    payload_handler "cd34" (.obj sample_pfs) =
      .sent (.obj (setKey sample_pfs "data" (.obj (enrichChain "cd34" sample_dfs [])))) :=
  ⟨rfl, claim6_absent_trace_tolerated "cd34" sample_pfs sample_dfs [] (.obj [])
    rfl rfl rfl rfl rfl⟩

/-- C9: a sent payload differs from its input only inside `data`, and there
only at the six written keys `person`, `custom`, `foo_key`, `empty_value`,
`base_model_custom`, `framework`; every other key of `data` (`level`, the
whole `body` substructure, ...) and every top-level key other than `data`
keeps its input value. -/
theorem claim9_frame_effect (traceId : String) (pfs dfs : List (String × Value))
    (q : Value)
    (hdata : lookup pfs "data" = some (.obj dfs))
    (hsent : payload_handler traceId (.obj pfs) = .sent q) :
    (∀ k, k ≠ "data" → getAt q [k] = lookup pfs k) ∧
    (∀ k, k ∉ enrichKeys → getAt q ["data", k] = lookup dfs k) := by
  obtain ⟨cfs, exc, hlvl, hexc, htr, hc, hq⟩ :=
    payload_handler_sent_inv_obj traceId pfs dfs q hdata hsent
  subst hq
  constructor
  · intro k hk
    rw [getAt_single, lookup_setKey_ne pfs "data" k _ hk]
  · intro k hk
    rw [getAt_cons_obj _ _ _ _ (lookup_setKey_self pfs "data" _), getAt_single,
      lookup_enrichChain_frame traceId dfs cfs k hk]

/-- C9 witness: on the concrete `ZeroDivisionError` payload, `level` and the
whole `body` substructure survive enrichment unchanged. -/
theorem claim9_frame_effect_witness :
    getAt (.obj (setKey c2_pfs "data" (.obj (enrichChain "e5f6" c2_dfs c2_cfs))))
      ["data", "level"] = lookup c2_dfs "level" ∧
    getAt (.obj (setKey c2_pfs "data" (.obj (enrichChain "e5f6" c2_dfs c2_cfs))))
      ["data", "body"] = lookup c2_dfs "body" :=
  ⟨(claim9_frame_effect "e5f6" c2_pfs c2_dfs
      (.obj (setKey c2_pfs "data" (.obj (enrichChain "e5f6" c2_dfs c2_cfs))))
      rfl rfl).2 "level" (by decide),
   (claim9_frame_effect "e5f6" c2_pfs c2_dfs
      (.obj (setKey c2_pfs "data" (.obj (enrichChain "e5f6" c2_dfs c2_cfs))))
      rfl rfl).2 "body" (by decide)⟩

theorem extract_exc_congr (dfs1 dfs2 : List (String × Value))
    (h : lookup dfs1 "body" = lookup dfs2 "body") :
    extract_exc dfs1 = extract_exc dfs2 := by
  unfold extract_exc
  simp only [pyGet, h]

theorem get_custom_data_agree (t1 t2 k : String) (hk : k ≠ "trace_id") :
    lookup (get_custom_data t1) k = lookup (get_custom_data t2) k := by
  have h' : ¬ ("trace_id" = k) := fun hh => hk hh.symm
  simp [get_custom_data, lookup, h']

theorem lookup_enrichChain_agree (t1 t2 : String) (dfs cfs : List (String × Value))
    (k : String) (hk : k ≠ "custom") :
    lookup (enrichChain t1 dfs cfs) k = lookup (enrichChain t2 dfs cfs) k := by
  by_cases h1 : k = "person"
  · subst h1
    rw [(lookup_enrichChain_self t1 dfs cfs).1, (lookup_enrichChain_self t2 dfs cfs).1]
  by_cases h3 : k = "foo_key"
  · subst h3
    rw [(lookup_enrichChain_self t1 dfs cfs).2.2.1,
      (lookup_enrichChain_self t2 dfs cfs).2.2.1]
  by_cases h4 : k = "empty_value"
  · subst h4
    rw [(lookup_enrichChain_self t1 dfs cfs).2.2.2.1,
      (lookup_enrichChain_self t2 dfs cfs).2.2.2.1]
  by_cases h5 : k = "base_model_custom"
  · subst h5
    rw [(lookup_enrichChain_self t1 dfs cfs).2.2.2.2.1,
      (lookup_enrichChain_self t2 dfs cfs).2.2.2.2.1]
  by_cases h6 : k = "framework"
  · subst h6
    rw [(lookup_enrichChain_self t1 dfs cfs).2.2.2.2.2,
      (lookup_enrichChain_self t2 dfs cfs).2.2.2.2.2]
  have hk' : k ∉ enrichKeys := by
    simp only [enrichKeys, List.mem_cons, List.not_mem_nil, or_false]
    push_neg
    exact ⟨h1, hk, h3, h4, h5, h6⟩
  rw [lookup_enrichChain_frame t1 dfs cfs k hk', lookup_enrichChain_frame t2 dfs cfs k hk']

/-- A `data` dictionary that already carries the enrichment values is a fixed
point of the enrichment write chain. -/
theorem enrichChain_fixed (t2 : String) (C M : List (String × Value))
    (hp : lookup C "person" = some get_person)
    (hc : lookup C "custom" = some (.obj M))
    (habs : mergeObj (get_custom_data t2) M = M)
    (hf : lookup C "foo_key" = some foo_key_value)
    (he : lookup C "empty_value" = some .null)
    (hb : lookup C "base_model_custom" = some base_model_custom_value)
    (hw : lookup C "framework" = some (.str "oreore_framework 1.0")) :
    enrichChain t2 C M = C := by
  unfold enrichChain
  rw [setKey_lookup_self _ _ _ hp, habs, setKey_lookup_self _ _ _ hc,
    setKey_lookup_self _ _ _ hf, setKey_lookup_self _ _ _ he,
    setKey_lookup_self _ _ _ hb, setKey_lookup_self _ _ _ hw]

/-- C7: reinvoking `_payload_handler` on a payload it previously returned
(with any token drawn in the second call) does not raise and returns that
payload unchanged: every overwritten field gets the value it already had, so
the twice-enriched payload equals the once-enriched payload. -/
theorem claim7_idempotent (t1 t2 : String) (p q : Value)
    (h : payload_handler t1 p = .sent q) :
    payload_handler t2 q = .sent q := by
  obtain ⟨pfs, dfs, exc, d6, rfl, hdata, hlvl, hexc, htr, hen, rfl⟩ :=
    payload_handler_sent_inv t1 p q h
  obtain ⟨cfs, hc, rfl⟩ := enrich_data_inv t1 dfs d6 hen
  have hself := lookup_enrichChain_self t1 dfs cfs
  have hdata2 : lookup (setKey pfs "data" (.obj (enrichChain t1 dfs cfs))) "data" =
      some (.obj (enrichChain t1 dfs cfs)) := lookup_setKey_self pfs "data" _
  have hlvl2 : lookup (enrichChain t1 dfs cfs) "level" = some (.str "error") := by
    rw [lookup_enrichChain_frame t1 dfs cfs "level" (by decide)]
    exact hlvl
  have hbody : lookup (enrichChain t1 dfs cfs) "body" = lookup dfs "body" :=
    lookup_enrichChain_frame t1 dfs cfs "body" (by decide)
  have hexc2 : extract_exc (enrichChain t1 dfs cfs) = some exc := by
    rw [extract_exc_congr _ dfs hbody]
    exact hexc
  have hcget : (lookup (enrichChain t1 dfs cfs) "custom").getD (.obj []) =
      .obj (mergeObj (get_custom_data t1) cfs) := by
    rw [hself.2.1]
    rfl
  have hfixed : enrichChain t2 (enrichChain t1 dfs cfs)
      (mergeObj (get_custom_data t1) cfs) = enrichChain t1 dfs cfs :=
    enrichChain_fixed t2 _ _ hself.1 hself.2.1 (mergeObj_absorb t1 t2 cfs)
      hself.2.2.1 hself.2.2.2.1 hself.2.2.2.2.1 hself.2.2.2.2.2
  have hen2 : enrich_data t2 (enrichChain t1 dfs cfs) =
      some (enrichChain t1 dfs cfs) := by
    rw [enrich_data_eq t2 (enrichChain t1 dfs cfs)
      (mergeObj (get_custom_data t1) cfs) hcget, hfixed]
  have hfinal := payload_handler_sent t2 (setKey pfs "data" (.obj (enrichChain t1 dfs cfs)))
    (enrichChain t1 dfs cfs) exc (enrichChain t1 dfs cfs) hdata2 hlvl2 hexc2 htr hen2
  rw [setKey_lookup_self _ _ _ (lookup_setKey_self pfs "data"
    (.obj (enrichChain t1 dfs cfs)))] at hfinal
  exact hfinal

/-- C7 witness: re-running the handler on the enriched minimal payload with a
different token returns it unchanged. -/
theorem claim7_idempotent_witness :
    payload_handler "w2"
      (.obj (setKey sample_pfs "data" (.obj (enrichChain "w1" sample_dfs [])))) =
      .sent (.obj (setKey sample_pfs "data" (.obj (enrichChain "w1" sample_dfs [])))) :=
  claim7_idempotent "w1" "w2" (.obj sample_pfs)
    (.obj (setKey sample_pfs "data" (.obj (enrichChain "w1" sample_dfs [])))) rfl

/-- C10: on the same error-level input, two handler invocations differ at
most at `data.custom.trace_id`: outputs agree at every top-level key, every
`data` key other than `custom`, and every `custom` key other than
`trace_id`; `person`, `foo_key`, `base_model_custom` and `framework` are the
fixed literals of the pipeline, independent of input. -/
theorem claim10_trace_only_nondet (t1 t2 : String)
    (pfs dfs : List (String × Value)) (q1 q2 : Value)
    (hdata : lookup pfs "data" = some (.obj dfs))
    (h1 : payload_handler t1 (.obj pfs) = .sent q1)
    (h2 : payload_handler t2 (.obj pfs) = .sent q2) :
    (∀ k, getAt q1 [k] = getAt q2 [k] ∨ k = "data") ∧
    (∀ k, k ≠ "custom" → getAt q1 ["data", k] = getAt q2 ["data", k]) ∧
    (∀ k, k ≠ "trace_id" →
      getAt q1 ["data", "custom", k] = getAt q2 ["data", "custom", k]) ∧
    getAt q1 ["data", "person"] = some get_person ∧
    getAt q1 ["data", "foo_key"] = some foo_key_value ∧
    getAt q1 ["data", "base_model_custom"] = some base_model_custom_value ∧
    getAt q1 ["data", "framework"] = some (.str "oreore_framework 1.0") := by
  obtain ⟨cfs1, exc1, hlvl1, hexc1, htr1, hc1, hq1⟩ :=
    payload_handler_sent_inv_obj t1 pfs dfs q1 hdata h1
  obtain ⟨cfs2, exc2, hlvl2, hexc2, htr2, hc2, hq2⟩ :=
    payload_handler_sent_inv_obj t2 pfs dfs q2 hdata h2
  rw [hc1] at hc2
  obtain rfl : cfs1 = cfs2 := by injection hc2
  subst hq1
  subst hq2
  refine ⟨?_, ?_, ?_, ?_, ?_, ?_, ?_⟩
  · intro k
    by_cases hk : k = "data"
    · exact Or.inr hk
    · refine Or.inl ?_
      rw [getAt_single, getAt_single, lookup_setKey_ne pfs "data" k _ hk,
        lookup_setKey_ne pfs "data" k _ hk]
  · intro k hk
    rw [getAt_cons_obj _ _ _ _ (lookup_setKey_self pfs "data" _), getAt_single,
      getAt_cons_obj _ _ _ _ (lookup_setKey_self pfs "data" _), getAt_single,
      lookup_enrichChain_agree t1 t2 dfs cfs1 k hk]
  · intro k hk
    rw [getAt_cons_obj _ _ _ _ (lookup_setKey_self pfs "data" _),
      getAt_cons_obj _ _ _ _ (lookup_enrichChain_self t1 dfs cfs1).2.1,
      getAt_single,
      getAt_cons_obj _ _ _ _ (lookup_setKey_self pfs "data" _),
      getAt_cons_obj _ _ _ _ (lookup_enrichChain_self t2 dfs cfs1).2.1,
      getAt_single]
    exact (mergeObj_agree "trace_id" cfs1 (get_custom_data t1) (get_custom_data t2)
      rfl (fun k' hk' => get_custom_data_agree t1 t2 k' hk')).2 k hk
  · rw [getAt_cons_obj _ _ _ _ (lookup_setKey_self pfs "data" _), getAt_single]
    exact (lookup_enrichChain_self t1 dfs cfs1).1
  · rw [getAt_cons_obj _ _ _ _ (lookup_setKey_self pfs "data" _), getAt_single]
    exact (lookup_enrichChain_self t1 dfs cfs1).2.2.1
  · rw [getAt_cons_obj _ _ _ _ (lookup_setKey_self pfs "data" _), getAt_single]
    exact (lookup_enrichChain_self t1 dfs cfs1).2.2.2.2.1
  · rw [getAt_cons_obj _ _ _ _ (lookup_setKey_self pfs "data" _), getAt_single]
    exact (lookup_enrichChain_self t1 dfs cfs1).2.2.2.2.2

/-- C10 witness: on the minimal error payload with two distinct tokens, the
outputs agree at `data.level` and at `custom.feature_flags`, and the person
literal appears. -/
theorem claim10_trace_only_nondet_witness :
    getAt (.obj (setKey sample_pfs "data" (.obj (enrichChain "n1" sample_dfs []))))
      ["data", "level"] =
      getAt (.obj (setKey sample_pfs "data" (.obj (enrichChain "n2" sample_dfs []))))
      ["data", "level"] ∧
    getAt (.obj (setKey sample_pfs "data" (.obj (enrichChain "n1" sample_dfs []))))
      ["data", "custom", "feature_flags"] =
      getAt (.obj (setKey sample_pfs "data" (.obj (enrichChain "n2" sample_dfs []))))
      ["data", "custom", "feature_flags"] ∧
    getAt (.obj (setKey sample_pfs "data" (.obj (enrichChain "n1" sample_dfs []))))
      ["data", "person"] = some get_person :=
  ⟨(claim10_trace_only_nondet "n1" "n2" sample_pfs sample_dfs
      (.obj (setKey sample_pfs "data" (.obj (enrichChain "n1" sample_dfs []))))
      (.obj (setKey sample_pfs "data" (.obj (enrichChain "n2" sample_dfs []))))
      rfl rfl rfl).2.1 "level" (by decide),
   (claim10_trace_only_nondet "n1" "n2" sample_pfs sample_dfs
      (.obj (setKey sample_pfs "data" (.obj (enrichChain "n1" sample_dfs []))))
      (.obj (setKey sample_pfs "data" (.obj (enrichChain "n2" sample_dfs []))))
      rfl rfl rfl).2.2.1 "feature_flags" (by decide),
   (claim10_trace_only_nondet "n1" "n2" sample_pfs sample_dfs
      (.obj (setKey sample_pfs "data" (.obj (enrichChain "n1" sample_dfs []))))
      (.obj (setKey sample_pfs "data" (.obj (enrichChain "n2" sample_dfs []))))
      rfl rfl rfl).2.2.2.1⟩

end Rollbar
